import Mathlib

/-!
Verification development for the gitui asynchronous job layer, the
git2-hooks hook engine, the status adapter, the revwalk continuity
check and the text-input editor core.

Each definition is a shallow embedding of the correspondingly named
item of the Rust sources (`asyncgit/src/status.rs`,
`asyncgit/src/sync/status.rs`, `asyncgit/src/sync/revwalk.rs`,
`git2-hooks/src/hookspath.rs`, `git2-hooks/src/lib.rs`,
`src/components/textinput.rs`).  External effects (the filesystem,
the git library, child processes, wall-clock time) are passed in as
explicit parameters; machine integers are modelled by `Nat`/`Int`
(the arithmetic involved never overflows the source's integer types);
Rust strings are modelled by `String` or `List Char` with UTF-8 byte
lengths computed via `Char.utf8Size`.
-/

namespace Gitui

/-! ## Status domain types (`asyncgit/src/sync/status.rs`) -/

/-- `StatusItemType` of `asyncgit/src/sync/status.rs`. -/
inductive StatusItemType where
  | New
  | Modified
  | Deleted
  | Renamed
  | Typechange
  | Conflicted
deriving DecidableEq, Repr

/-- `StatusItem` of `asyncgit/src/sync/status.rs`: a forward-slash
relative path together with its status kind. -/
structure StatusItem where
  path : String
  status : StatusItemType
deriving DecidableEq, Repr

/-- `StatusType` of `asyncgit/src/sync/status.rs`. -/
inductive StatusType where
  | WorkingDir
  | Stage
  | Both
deriving DecidableEq, Repr

/-- `ShowUntrackedFilesConfig` (variants per the `From` impl in
`asyncgit/src/sync/status.rs`). -/
inductive ShowUntrackedFilesConfig where
  | All
  | Normal
  | No
deriving DecidableEq, Repr

/-- The comparison key of `Path::new(a.path).cmp(Path::new(b.path))`
in `get_status`: Rust compares paths component-wise, components being
compared by their bytes.  The status items carry forward-slash
relative paths, for which the components are exactly the
slash-separated segments, and UTF-8 byte order coincides with
code-point order, so the key is the list of components as `List Char`
under the lexicographic list order. -/
def pathKey (s : String) : List (List Char) :=
  (s.splitOn "/").map String.data

/-- The boolean comparison handed to the sort in `get_status`. -/
def status_le (a b : StatusItem) : Bool :=
  decide (pathKey a.path ≤ pathKey b.path)

/-- `get_status` of `asyncgit/src/sync/status.rs`, lines 171-270,
abstracted over the item sequence that the `gix` library iteration
pushes into `res` (building `res` is a straight loop over library
output).  The function's own final step is
`res.sort_by(|a, b| Path::new(..).cmp(Path::new(..)))`; Rust's
`sort_by` is a stable merge sort, modelled by `List.mergeSort`.
No deduplication is performed. -/
def get_status (entries : List StatusItem) : List StatusItem :=
  entries.mergeSort status_le

/-! ## The status job latch (`asyncgit/src/status.rs`) -/

/-- `Status` of `asyncgit/src/status.rs`. -/
structure Status where
  items : List StatusItem
deriving DecidableEq, Repr

/-- `StatusParams` of `asyncgit/src/status.rs`. -/
structure StatusParams where
  status_type : StatusType
  config : Option ShowUntrackedFilesConfig
deriving DecidableEq, Repr

/-- The `Request<u64, Status>` pair guarded by the `current` mutex:
the fingerprint of the latest request and the cached result for it. -/
structure Request where
  hash : Nat
  cached : Option Status
deriving DecidableEq, Repr

/-- The mutable state of `AsyncStatus` (the fields `current`, `last`,
`pending`, `generation`; the channel sender is not part of the
state). -/
structure AsyncStatusState where
  current : Request
  last : Status
  pending : Nat
  generation : Nat
deriving DecidableEq, Repr

/-- Initial state built by `AsyncStatus::new`. -/
def AsyncStatusState.new : AsyncStatusState :=
  { current := { hash := 0, cached := none }
    last := { items := [] }
    pending := 0
    generation := 0 }

/-- `AsyncStatus::is_pending`. -/
def AsyncStatusState.is_pending (st : AsyncStatusState) : Bool :=
  0 < st.pending

/-- Result of one `AsyncStatus::fetch` call: the returned
`Option<Status>`, the state after the synchronous part of the call,
and whether a worker job was spawned (`rayon_core::spawn`). -/
structure FetchOutcome where
  result : Option Status
  state : AsyncStatusState
  spawned : Bool
deriving DecidableEq, Repr

/-- `AsyncStatus::fetch` of `asyncgit/src/status.rs`, lines 84-147.
The 64-bit fingerprint `hash(&(params, generation))` is abstracted as
the parameter `hash`. -/
def AsyncStatusState.fetch (hash : StatusParams → Nat → Nat)
    (st : AsyncStatusState) (params : StatusParams) : FetchOutcome :=
  if st.is_pending then
    { result := none, state := st, spawned := false }
  else
    let generation := st.generation
    let hash_request := hash params generation
    if st.current.hash = hash_request then
      { result := st.current.cached, state := st, spawned := false }
    else
      { result := none
        state := { st with
          current := { hash := hash_request, cached := none }
          pending := st.pending + 1 }
        spawned := true }

/-- `AsyncStatus::fetch_helper` of `asyncgit/src/status.rs`, lines
149-175, restricted to its effect on the guarded `current` slot:
the fetched result is cached only if the stored fingerprint still
equals the request's fingerprint. -/
def fetch_helper (hash_request : Nat) (res : Status)
    (current : Request) : Request :=
  if current.hash = hash_request then { current with cached := some res }
  else current

/-- The tail of the worker closure spawned by `fetch` (lines
125-144): store the result via `fetch_helper`, overwrite `last`,
increment the generation counter and decrement the pending counter.
`res = none` models a failed `fetch_helper` (only logged; generation
and pending are still updated). -/
def worker_complete (hash_request : Nat) (res : Option Status)
    (st : AsyncStatusState) : AsyncStatusState :=
  let st := match res with
    | some r =>
      { st with
        current := fetch_helper hash_request r st.current
        last := r }
    | none => st
  { st with generation := st.generation + 1, pending := st.pending - 1 }

/-! ## Filesystem paths and hook resolution
(`git2-hooks/src/hookspath.rs`) -/

/-- A filesystem path: an absolute flag plus the list of components.
`PathBuf::from` of a path string is modelled by presenting the path
in this parsed form (stripping repeated and trailing slashes, which
is also what `trim_end_matches('/')` achieves for the extra search
paths). -/
structure FsPath where
  absolute : Bool
  comps : List String
deriving DecidableEq, Repr

/-- `PathBuf::join`: joining an absolute path replaces the base. -/
def FsPath.join (p q : FsPath) : FsPath :=
  if q.absolute then q else { absolute := p.absolute, comps := p.comps ++ q.comps }

/-- A bare file name as a relative single-component path. -/
def relFile (s : String) : FsPath :=
  { absolute := false, comps := [s] }

/-- The tilde step of `shellexpand::full` used by
`HookPaths::expand_path`: a leading `~` component of a relative path
is replaced by the caller's home directory when one exists (the
crate leaves the string unchanged otherwise).  Environment-variable
interpolation, which never fires on the paths considered here, is
not modelled. -/
def tilde_expand (home : Option FsPath) (p : FsPath) : FsPath :=
  if p.absolute then p
  else
    match p.comps with
    | "~" :: rest =>
      match home with
      | some h => { absolute := h.absolute, comps := h.comps ++ rest }
      | none => p
    | _ => p

/-- `HookPaths::expand_path` of `git2-hooks/src/hookspath.rs`, lines
76-107: shell-expand, then resolve a relative result against the
hook's working directory `pwd`. -/
def expand_path (home : Option FsPath) (path : FsPath) (pwd : FsPath) : FsPath :=
  let hook_expanded := tilde_expand home path
  if hook_expanded.absolute then hook_expanded else pwd.join hook_expanded

/-- The repository facts consumed by hook resolution: `workdir()`
(present iff the repository is non-bare), `path()` (the git dir) and
the `core.hooksPath` config value, already in parsed path form. -/
structure Repository where
  workdir : Option FsPath
  gitdir : FsPath
  hooks_path_config : Option FsPath
deriving DecidableEq, Repr

/-- `DEFAULT_HOOKS_PATH = "hooks"` as a relative path. -/
def default_hooks_path : FsPath :=
  { absolute := false, comps := ["hooks"] }

/-- `HookPaths::find_hook` of `git2-hooks/src/hookspath.rs`, lines
115-140: probe `<git-dir>/hooks/<hook>` then each
`<git-dir>/<extra>/<hook>`, returning the first existing candidate,
or the default candidate when none exists.  Existence on disk is the
oracle `file_exists`. -/
def find_hook (file_exists : FsPath → Bool) (repo : Repository)
    (other_paths : Option (List FsPath)) (hook : String) : FsPath :=
  let paths := default_hooks_path :: other_paths.getD []
  match paths.find? (fun p => file_exists ((repo.gitdir.join p).join (relFile hook))) with
  | some p => (repo.gitdir.join p).join (relFile hook)
  | none => (repo.gitdir.join default_hooks_path).join (relFile hook)

/-- `HookPaths` of `git2-hooks/src/hookspath.rs`. -/
structure HookPaths where
  git : FsPath
  hook : FsPath
  pwd : FsPath
deriving DecidableEq, Repr

/-- `HookPaths::new` of `git2-hooks/src/hookspath.rs`, lines 42-72:
`pwd` is the worktree root for non-bare repositories and the git dir
for bare ones; a configured `core.hooksPath` short-circuits the
search and is returned (expanded) without any existence check. -/
def HookPaths.new (file_exists : FsPath → Bool) (home : Option FsPath)
    (repo : Repository) (other_paths : Option (List FsPath))
    (hook : String) : HookPaths :=
  let pwd := repo.workdir.getD repo.gitdir
  let git_dir := repo.gitdir
  match repo.hooks_path_config with
  | some config_path =>
    { git := git_dir
      hook := expand_path home (config_path.join (relFile hook)) pwd
      pwd := pwd }
  | none =>
    { git := git_dir
      hook := find_hook file_exists repo other_paths hook
      pwd := pwd }

/-! ## Process output and hook results -/

/-- The part of `std::process::Output` consumed by the hook engine:
the exit code (`None` when the child was terminated by a signal) and
the two captured streams, already lossy-UTF-8 decoded. -/
structure Output where
  code : Option Int
  stdout : String
  stderr : String
deriving DecidableEq, Repr

/-- `ExitStatus::success()`: the process exited with code 0. -/
def Output.success (o : Output) : Bool :=
  o.code = some 0

namespace Hookspath

/-- The `HookResult` enum as used by `git2-hooks/src/hookspath.rs`
and matched by `asyncgit/src/sync/hooks.rs`: success carries only the
hook path, failure carries the optional exit code and the captured
streams, timeout carries the best-effort drained streams. -/
inductive HookResult where
  | NoHookFound
  | Ok (hook : FsPath)
  | RunNotSuccessful (code : Option Int) (stdout stderr : String) (hook : FsPath)
  | TimedOut (hook : FsPath) (stdout stderr : String)
deriving DecidableEq, Repr

/-- The captured stdout a `HookResult` carries, if any. -/
def HookResult.stdout_of : HookResult → Option String
  | .NoHookFound => none
  | .Ok _ => none
  | .RunNotSuccessful _ stdout _ _ => some stdout
  | .TimedOut _ stdout _ => some stdout

/-- The exit code a `HookResult` carries, if any. -/
def HookResult.code_of : HookResult → Option (Option Int)
  | .NoHookFound => none
  | .Ok _ => none
  | .RunNotSuccessful code _ _ _ => some code
  | .TimedOut _ _ _ => none

/-- `hook_result_from_output` of `git2-hooks/src/hookspath.rs`, lines
327-346: a successful exit status becomes `Ok { hook }`; anything
else becomes `RunNotSuccessful` with the lossy-decoded captures. -/
def hook_result_from_output (hook : FsPath) (output : Output) : HookResult :=
  if output.success then .Ok hook
  else .RunNotSuccessful output.code output.stdout output.stderr hook

end Hookspath

namespace HooksLib

/-- `HookRunResponse` of `git2-hooks/src/lib.rs`, lines 101-112. -/
structure HookRunResponse where
  hook : FsPath
  stdout : String
  stderr : String
  code : Int
deriving DecidableEq, Repr

/-- The `HookResult` enum of `git2-hooks/src/lib.rs`, lines 114-120. -/
inductive HookResult where
  | NoHookFound
  | Run (response : HookRunResponse)
deriving DecidableEq, Repr

/-- `HookResult::is_ok` of `git2-hooks/src/lib.rs`, lines 122-129:
the hook succeeded with exit code 0, or no hook was found. -/
def HookResult.is_ok : HookResult → Bool
  | .Run response => response.code = 0
  | .NoHookFound => true

/-- `HookResult::is_no_hook_found` of `git2-hooks/src/lib.rs`. -/
def HookResult.is_no_hook_found : HookResult → Bool
  | .NoHookFound => true
  | _ => false

/-- `HookRunResponse::is_successful` of `git2-hooks/src/lib.rs`. -/
def HookRunResponse.is_successful (r : HookRunResponse) : Bool :=
  r.code = 0

end HooksLib

/-! ## The quadratic-backoff supervision loop
(`git2-hooks/src/hookspath.rs`, lines 295-325) -/

/-- `TIMESCALE`: 1 millisecond, the base sleep unit. -/
def TIMESCALE : Nat := 1

/-- `MAX_SLEEP`: 50 milliseconds, the sleep cap. -/
def MAX_SLEEP : Nat := 50

/-- The sleep computed inside the loop body:
`TIMESCALE.saturating_mul(attempt.saturating_pow(2)).min(MAX_SLEEP).min(remaining_time)`.
On `Nat` the saturating operations are exact. -/
def sleep_time (attempt : Nat) (remaining : Nat) : Nat :=
  min (min (TIMESCALE * attempt ^ 2) MAX_SLEEP) remaining

/-- `timeout_with_quadratic_backoff` of `git2-hooks/src/hookspath.rs`,
lines 295-325.  Time is in milliseconds.  `is_complete` is the probe
(`child.try_wait().is_some()`) as a function of the elapsed time on
the loop's `Instant` timer; `overhead` is the (nonnegative) wall time
an iteration consumes beyond its sleep, so after the check at elapsed
time `e` with attempt counter `a` the next check happens at
`e + sleep_time a (timeout - e) + overhead a`.  The Rust loop is
unbounded; `fuel` bounds the recursion, `none` meaning the loop was
still running after `fuel` iterations. -/
def timeout_with_quadratic_backoff (is_complete : Nat → Bool)
    (overhead : Nat → Nat) (timeout : Nat) :
    Nat → Nat → Nat → Option Bool
  | 0, _, _ => none
  | fuel + 1, elapsed, attempt =>
    if is_complete elapsed then some true
    else if timeout < elapsed then some false
    else
      timeout_with_quadratic_backoff is_complete overhead timeout fuel
        (elapsed + sleep_time attempt (timeout - elapsed) + overhead attempt)
        (attempt + 1)

/-- The elapsed time at the loop's `i`-th completion check (0-based;
the attempt counter at check `i` is `i + 1`), were the loop to run
that far. -/
def elapsed_at (overhead : Nat → Nat) (timeout : Nat) : Nat → Nat
  | 0 => 0
  | i + 1 =>
    let e := elapsed_at overhead timeout i
    e + sleep_time (i + 1) (timeout - e) + overhead (i + 1)

/-! ## The hook runner (`git2-hooks/src/hookspath.rs`, lines 191-244) -/

/-- The observable behaviour of a spawned hook child process:
`output` is what `wait_with_output` returns, `completed` tells
whether `try_wait` reports an exit at a given elapsed time, and the
`killed_*` fields are what draining the pipes yields after a kill. -/
structure Child where
  output : Output
  completed : Nat → Bool
  killed_stdout : String
  killed_stderr : String

/-- `HookPaths::run_hook_with_timeout_os_str` of
`git2-hooks/src/hookspath.rs`, lines 191-244, after a successful
spawn.  A missing or zero timeout waits unconditionally; otherwise
the quadratic-backoff supervision decides between waiting and
killing the process group.  `none` models the (unreachable in
practice) exhaustion of the loop fuel. -/
def run_hook_with_timeout_os_str (overhead : Nat → Nat) (fuel : Nat)
    (hook : FsPath) (child : Child) (timeout : Option Nat) :
    Option Hookspath.HookResult :=
  match timeout with
  | none => some (Hookspath.hook_result_from_output hook child.output)
  | some t =>
    if t = 0 then some (Hookspath.hook_result_from_output hook child.output)
    else
      match timeout_with_quadratic_backoff child.completed overhead t fuel 0 1 with
      | some true => some (Hookspath.hook_result_from_output hook child.output)
      | some false =>
        some (.TimedOut hook child.killed_stdout child.killed_stderr)
      | none => none

/-! ## Pre-push and commit-msg hooks (`git2-hooks/src/lib.rs`) -/

/-- `PrePushRef` of `git2-hooks/src/lib.rs`, lines 61-67.  An `Oid`
is modelled by its lowercase-hex rendering, which is all
`hooks_pre_push` consumes of it. -/
structure PrePushRef where
  local_ref : String
  local_oid : Option String
  remote_ref : String
  remote_oid : Option String
deriving DecidableEq, Repr

/-- `PrePushRef::format_oid`: a missing oid renders as forty `'0'`
characters (`"0".repeat(40)`), a present one as its hex form. -/
def format_oid (oid : Option String) : String :=
  match oid with
  | none => String.mk (List.replicate 40 '0')
  | some id => id

/-- `PrePushRef::to_line` of `git2-hooks/src/lib.rs`, lines 89-98. -/
def PrePushRef.to_line (u : PrePushRef) : String :=
  u.local_ref ++ " " ++ format_oid u.local_oid ++ " "
    ++ u.remote_ref ++ " " ++ format_oid u.remote_oid

/-- What a spawned hook process receives from the runner: its argv
(after the hook path itself) and its stdin. -/
structure HookInvocation where
  args : List String
  stdin_data : Option String
deriving DecidableEq, Repr

/-- Modelled from the spec: `run_hook_os_str_with_stdin`, invoked by
`hooks_pre_push`, has no body among the sources (only the
stdin-less runners of `hookspath.rs` do).  Per the spec's hook-runner
contract the runner passes `args` as the hook's argv and, when stdin
data is provided, writes it to the child fully before waiting; it is
therefore modelled as the record of what the hook receives. -/
def run_hook_os_str_with_stdin (args : List String)
    (stdin : Option String) : HookInvocation :=
  { args := args, stdin_data := stdin }

/-- `hooks_pre_push` of `git2-hooks/src/lib.rs`, lines 245-277,
abstracted over hook resolution: `found` is `hook.found()`.  Returns
what the hook process receives, `none` when no hook ran. -/
def hooks_pre_push (found : Bool) (remote : Option String)
    (url : String) (updates : List PrePushRef) : Option HookInvocation :=
  if found = false then none
  else
    let remote_name :=
      match remote with
      | some r => if r ≠ "" then r else url
      | none => url
    let stdin_data := String.join (updates.map (fun u => u.to_line ++ "\n"))
    some (run_hook_os_str_with_stdin [remote_name, url] (some stdin_data))

/-- One run of a commit-message hook over the
`<git-dir>/COMMIT_EDITMSG` temp file, as a function of the message
the caller wrote into the file: `file_after` is the file's content
once the hook finished (the hook may rewrite it), `output` the
process outcome. -/
structure CommitMsgHookExec where
  file_after : String
  output : Output

/-- `hooks_commit_msg` of `git2-hooks/src/lib.rs`, lines 182-203,
abstracted over hook resolution and the script's behaviour: write
`msg` to the temp file, run the hook, then unconditionally re-read
the (possibly rewritten) file into the caller's message.  Returns the
hook result and the caller's message afterwards. -/
def hooks_commit_msg (found : Bool)
    (hook_behavior : String → CommitMsgHookExec) (hook_path : FsPath)
    (msg : String) : Hookspath.HookResult × String :=
  if found = false then (.NoHookFound, msg)
  else
    let run := hook_behavior msg
    (Hookspath.hook_result_from_output hook_path run.output, run.file_after)

/-- `PrepareCommitMsgSource` of `git2-hooks/src/lib.rs`. -/
inductive PrepareCommitMsgSource where
  | Message
  | Template
  | Merge
  | Squash
  | Commit (oid : String)
deriving DecidableEq, Repr

/-- `hooks_prepare_commit_msg` of `git2-hooks/src/lib.rs`, lines
289-336, abstracted like `hooks_commit_msg`; the hook's behaviour may
depend on the source argument it is handed. -/
def hooks_prepare_commit_msg (found : Bool)
    (hook_behavior : PrepareCommitMsgSource → String → CommitMsgHookExec)
    (hook_path : FsPath) (source : PrepareCommitMsgSource)
    (msg : String) : Hookspath.HookResult × String :=
  if found = false then (.NoHookFound, msg)
  else
    let run := hook_behavior source msg
    (Hookspath.hook_result_from_output hook_path run.output, run.file_after)

/-! ## Revwalk continuity (`asyncgit/src/sync/revwalk.rs`) -/

/-- `CommitId`: equality is byte equality of the underlying hash, so
an abstract identifier suffices. -/
abbrev CommitId := Nat

/-- The `try_fold` over `revwalked.iter().zip(commits)` in
`is_continuous`: the accumulator starts at `Ok(true)`, each step
conjoins equality of the paired ids, and the fold breaks on the
first step whose accumulator is not `Ok(true)`.  No step produces an
`Err`, so the fold computes whether all pairs are equal. -/
def continuity_fold : List (CommitId × CommitId) → Bool
  | [] => true
  | (r, c) :: rest => if r = c then continuity_fold rest else false

/-- `is_continuous` of `asyncgit/src/sync/revwalk.rs`, lines 10-43.
The repository's topologically sorted revwalk pushed at a commit is
the oracle `walk`; the code takes `commits.len()` items of it,
returns `false` if fewer are produced and otherwise folds the
element-wise comparison. -/
def is_continuous (walk : CommitId → List CommitId)
    (commits : List CommitId) : Bool :=
  match commits with
  | [] => true
  | [_] => true
  | c0 :: rest =>
    let commits := c0 :: rest
    let revwalked := (walk c0).take commits.length
    if revwalked.length ≠ commits.length then false
    else continuity_fold (revwalked.zip commits)

/-! ## The text-input editor core (`src/components/textinput.rs`) -/

/-- A buffer line, as its sequence of characters.  The Rust `String`
byte length used by the column clamps is the UTF-8 byte size. -/
abbrev Line := List Char

/-- Rust `String::len` of a line: its UTF-8 byte count. -/
def lineByteLen (l : Line) : Nat :=
  (l.map Char.utf8Size).sum

/-- `CursorMove` of `src/components/textinput.rs`. -/
inductive CursorMove where
  | Top
  | Bottom
  | Up
  | Down
  | Back
  | Forward
  | Home
  | End
  | PageUp
  | PageDown
deriving DecidableEq, Repr

/-- The state of `TextArea` of `src/components/textinput.rs` that the
editing operations touch: the lines and the 0-based `(row, column)`
cursor.  Styling, placeholder and scroll state are not represented;
`scroll.get_visual_height()`, consumed by the page moves, is passed
to `move_cursor` explicitly. -/
structure TextArea where
  lines : List Line
  cursor : Nat × Nat
deriving DecidableEq, Repr

/-- `self.lines[r]`.  The Rust indexing would panic out of range; all
reachable states keep the row in range, and the default `[]` is
never consulted there. -/
def TextArea.lineAt (ta : TextArea) (r : Nat) : Line :=
  ta.lines.getD r []

/-- `TextArea::new`: an empty line list is replaced by one empty
line; the cursor starts at the origin. -/
def TextArea.new (lines : List Line) : TextArea :=
  { lines := if lines.isEmpty then [[]] else lines, cursor := (0, 0) }

/-- `TextArea::move_cursor` of `src/components/textinput.rs`, lines
166-240.  Note which bound each arm clamps the column with: `Top`,
`Bottom`, `Up`, `Down`, `PageUp` and `PageDown` use
`self.lines[new_row].len()`, the byte length, while `Forward` and
`End` use `char_indices().count()`, the character count. -/
def TextArea.move_cursor (ta : TextArea) (cursor_move : CursorMove)
    (visual_height : Nat) : TextArea :=
  let (current_row, current_column) := ta.cursor
  match cursor_move with
  | .Top =>
    { ta with cursor := (0, min current_column (lineByteLen (ta.lineAt 0))) }
  | .Bottom =>
    let last_row := ta.lines.length - 1
    { ta with
      cursor := (last_row, min current_column (lineByteLen (ta.lineAt last_row))) }
  | .Up =>
    let new_row := current_row - 1
    { ta with
      cursor := (new_row, min current_column (lineByteLen (ta.lineAt new_row))) }
  | .Down =>
    let new_row := min (current_row + 1) (ta.lines.length - 1)
    { ta with
      cursor := (new_row, min current_column (lineByteLen (ta.lineAt new_row))) }
  | .Back =>
    { ta with cursor := (current_row, current_column - 1) }
  | .Forward =>
    { ta with
      cursor := (current_row, min (current_column + 1) (ta.lineAt current_row).length) }
  | .Home =>
    { ta with cursor := (current_row, 0) }
  | .End =>
    { ta with cursor := (current_row, (ta.lineAt current_row).length) }
  | .PageUp =>
    let new_row := current_row - visual_height
    { ta with
      cursor := (new_row, min current_column (lineByteLen (ta.lineAt new_row))) }
  | .PageDown =>
    let new_row := min (current_row + visual_height) (ta.lines.length - 1)
    { ta with
      cursor := (new_row, min current_column (lineByteLen (ta.lineAt new_row))) }

/-- `TextArea::delete_next_char` of `src/components/textinput.rs`,
lines 242-258.  The outer guard compares the column against the byte
length; the inner `char_indices().nth(current_column)` succeeds only
when the column is below the character count, and removes that one
character. -/
def TextArea.delete_next_char (ta : TextArea) : TextArea :=
  let (current_row, current_column) := ta.cursor
  let current_line := ta.lineAt current_row
  if current_column < lineByteLen current_line then
    if current_column < current_line.length then
      { ta with
        lines := ta.lines.set current_row
          (current_line.take current_column ++ current_line.drop (current_column + 1)) }
    else ta
  else if current_row < ta.lines.length - 1 then
    let next_line := ta.lineAt (current_row + 1)
    { ta with
      lines := (ta.lines.set current_row (current_line ++ next_line)).eraseIdx
        (current_row + 1) }
  else ta

/-- `TextArea::delete_char` of `src/components/textinput.rs`, lines
260-283: delete the character left of the cursor, or join with the
previous line at column 0, placing the cursor at the previous line's
character count. -/
def TextArea.delete_char (ta : TextArea) : TextArea :=
  let (current_row, current_column) := ta.cursor
  let current_line := ta.lineAt current_row
  if 0 < current_column then
    if current_column - 1 < current_line.length then
      { ta with
        lines := ta.lines.set current_row
          (current_line.take (current_column - 1) ++ current_line.drop current_column)
        cursor := (current_row, current_column - 1) }
    else ta
  else if 0 < current_row then
    let previous_line := ta.lineAt (current_row - 1)
    let previous_line_length := previous_line.length
    { ta with
      lines := (ta.lines.eraseIdx current_row).set (current_row - 1)
        (previous_line ++ current_line)
      cursor := (current_row - 1, previous_line_length) }
  else ta

/-- `TextArea::insert_char` of `src/components/textinput.rs`, lines
285-296: insert at the byte offset of character `current_column`
(the line's end when the column is past the last character) and move
right by one. -/
def TextArea.insert_char (ta : TextArea) (c : Char) : TextArea :=
  let (current_row, current_column) := ta.cursor
  let current_line := ta.lineAt current_row
  { ta with
    lines := ta.lines.set current_row
      (current_line.take current_column ++ c :: current_line.drop current_column)
    cursor := (current_row, current_column + 1) }

/-- `TextArea::insert_newline` of `src/components/textinput.rs`,
lines 328-342: split the current line at the cursor's character
offset; the cursor moves to the start of the new line. -/
def TextArea.insert_newline (ta : TextArea) : TextArea :=
  let (current_row, current_column) := ta.cursor
  let current_line := ta.lineAt current_row
  let new_line := current_line.drop current_column
  { ta with
    lines := (ta.lines.set current_row (current_line.take current_column)).insertIdx
      (current_row + 1) new_line
    cursor := (current_row + 1, 0) }

/-- One editing operation of the text-input core. -/
inductive EditOp where
  | insertChar (c : Char)
  | insertNewline
  | deleteChar
  | deleteNextChar
  | move (m : CursorMove) (visual_height : Nat)
deriving DecidableEq, Repr

/-- Apply one editing operation. -/
def TextArea.applyOp (ta : TextArea) : EditOp → TextArea
  | .insertChar c => ta.insert_char c
  | .insertNewline => ta.insert_newline
  | .deleteChar => ta.delete_char
  | .deleteNextChar => ta.delete_next_char
  | .move m h => ta.move_cursor m h

/-- Apply a sequence of editing operations, first first. -/
def TextArea.applyOps (ta : TextArea) (ops : List EditOp) : TextArea :=
  ops.foldl TextArea.applyOp ta

/-! ## Concrete instances used by the theorems below -/

/-- A resolved hook path used as a concrete input. -/
def c3_hook : FsPath :=
  { absolute := true, comps := ["repo", ".git", "hooks", "pre-commit"] }

/-- A successful process outcome with non-empty captured stdout. -/
def c3_output : Output :=
  { code := some 0, stdout := "captured output", stderr := "" }

/-- A concrete status item used to exhibit duplicate survival. -/
def dupItem : StatusItem :=
  { path := "foo", status := .New }

/-- A two-line buffer whose first line is the single two-byte
character `ä` and whose second line has four one-byte characters. -/
def c5_buffer : List Line :=
  [String.data "ä", String.data "aaaa"]

/-- Move to the second line, to its end (column 4), then up: the
clamp uses the first line's byte length 2, not its character count
1. -/
def c5_state : TextArea :=
  (TextArea.new c5_buffer).applyOps
    [.move .Down 0, .move .End 0, .move .Up 0]

/-- A concrete repository with `core.hooksPath` configured to a
relative directory. -/
def c4_repo : Repository :=
  { workdir := some { absolute := true, comps := ["wt"] }
    gitdir := { absolute := true, comps := ["wt", ".git"] }
    hooks_path_config := some { absolute := false, comps := ["myhooks"] } }

/-- A concrete fetch-latch state holding a cached result for
fingerprint 1. -/
def c1_cached_state : AsyncStatusState :=
  { current := { hash := 1, cached := some { items := [dupItem] } }
    last := { items := [] }
    pending := 0
    generation := 0 }

/-! ## Theorems -/

/-- The zipped continuity fold is element-wise equality: on
equal-length lists it decides list equality. -/
theorem continuity_fold_zip (xs ys : List CommitId)
    (h : xs.length = ys.length) :
    continuity_fold (xs.zip ys) = true ↔ xs = ys := by
  induction xs generalizing ys with
  | nil =>
    cases ys with
    | nil => simp [continuity_fold]
    | cons y ys => simp at h
  | cons x xs ih =>
    cases ys with
    | nil => simp at h
    | cons y ys =>
      simp only [List.zip_cons_cons, continuity_fold]
      by_cases hxy : x = y
      · subst hxy
        simp only [if_pos rfl, List.cons.injEq, true_and]
        exact ih ys (by simpa using h)
      · simp [hxy]

/-- C7: `is_continuous` accepts every empty or singleton sequence,
and on longer sequences it is true exactly when the topological walk
pushed at the first commit, cut to the sequence's length, equals the
sequence element-wise. -/
theorem is_continuous_spec (walk : CommitId → List CommitId) :
    is_continuous walk [] = true
    ∧ (∀ c, is_continuous walk [c] = true)
    ∧ ∀ c0 c1 rest,
      (is_continuous walk (c0 :: c1 :: rest) = true ↔
        (walk c0).take (c0 :: c1 :: rest).length = c0 :: c1 :: rest) := by
  refine ⟨rfl, fun c => rfl, fun c0 c1 rest => ?_⟩
  simp only [is_continuous]
  by_cases h : ((walk c0).take (c0 :: c1 :: rest).length).length
      = (c0 :: c1 :: rest).length
  · simp only [h, ne_eq, not_true_eq_false, if_false]
    exact continuity_fold_zip _ _ h
  · simp only [ne_eq, h, not_false_eq_true, if_true]
    constructor
    · intro hfalse
      exact absurd hfalse (by simp)
    · intro heq
      exact absurd (congrArg List.length heq) h

/-- C8 counterexample: the status adapter does not remove
duplicates — an item pushed twice by the library survives twice in
the sorted snapshot, so the snapshot is not duplicate-free. -/
theorem get_status_duplicates_survive :
    ¬ (get_status [dupItem, dupItem]).Nodup := by
  intro h
  have hp := List.mergeSort_perm [dupItem, dupItem] status_le
  have := hp.nodup_iff.mp h
  simp [dupItem] at this

/-- C8 (amended): every snapshot returned by `get_status` is sorted
by filesystem-lexicographic path order — adjacent items satisfy
`a.path ≤ b.path` on the component key — and is a permutation of the
items the library supplied (so nothing is deduplicated). -/
theorem get_status_sorted_perm (entries : List StatusItem) :
    List.Chain' (fun a b => pathKey a.path ≤ pathKey b.path)
      (get_status entries)
    ∧ (get_status entries).Perm entries := by
  constructor
  · have h := @List.sorted_mergeSort StatusItem status_le
      (fun a b c hab hbc => by
        simp only [status_le, decide_eq_true_eq] at *
        exact le_trans hab hbc)
      (fun a b => by
        simp only [status_le, Bool.or_eq_true, decide_eq_true_eq]
        exact le_total _ _)
      entries
    exact (h.imp (fun hab => by simpa [status_le] using hab)).chain'
  · exact List.mergeSort_perm entries status_le

/-- C9: running a hook with a zero timeout is the same as running it
with no timeout at all — both wait unconditionally for the child and
produce the plain output mapping, never entering the backoff
supervision or the `TimedOut` outcome. -/
theorem run_hook_zero_timeout_is_no_timeout (overhead : Nat → Nat)
    (fuel : Nat) (hook : FsPath) (child : Child) :
    run_hook_with_timeout_os_str overhead fuel hook child (some 0)
      = run_hook_with_timeout_os_str overhead fuel hook child none
    ∧ run_hook_with_timeout_os_str overhead fuel hook child none
      = some (Hookspath.hook_result_from_output hook child.output) := by
  constructor <;> simp [run_hook_with_timeout_os_str]

/-- C10: `hooks_commit_msg` (and `hooks_prepare_commit_msg`)
unconditionally replace the caller's message with the temp file's
content after the hook ran — for every hook behaviour, hence also
for rejecting hooks — while a missing hook leaves the message
untouched. -/
theorem hooks_commit_msg_propagates_rewrite
    (hb : String → CommitMsgHookExec)
    (pb : PrepareCommitMsgSource → String → CommitMsgHookExec)
    (hp : FsPath) (source : PrepareCommitMsgSource) (msg : String) :
    (hooks_commit_msg true hb hp msg).2 = (hb msg).file_after
    ∧ hooks_commit_msg false hb hp msg = (.NoHookFound, msg)
    ∧ (hooks_prepare_commit_msg true pb hp source msg).2
        = (pb source msg).file_after
    ∧ hooks_prepare_commit_msg false pb hp source msg
        = (.NoHookFound, msg) := by
  refine ⟨?_, ?_, ?_, ?_⟩ <;>
    simp [hooks_commit_msg, hooks_prepare_commit_msg]

/-- C1: a fetch on a pending latch starts no new work; a fetch whose
fingerprint (hash of the parameters and the current generation)
equals the stored one while a cached result exists returns that
result synchronously without spawning; a fetch with a new
fingerprint clears the cached value, stamps the new fingerprint and
spawns a worker. -/
theorem asyncstatus_fetch_single_flight (hash : StatusParams → Nat → Nat)
    (st : AsyncStatusState) (params : StatusParams) :
    (st.is_pending = true →
      st.fetch hash params = { result := none, state := st, spawned := false })
    ∧ (st.is_pending = false →
      st.current.hash = hash params st.generation →
      ∀ r, st.current.cached = some r →
        st.fetch hash params
          = { result := some r, state := st, spawned := false })
    ∧ (st.is_pending = false →
      st.current.hash ≠ hash params st.generation →
      st.fetch hash params =
        { result := none
          state := { st with
            current := { hash := hash params st.generation, cached := none }
            pending := st.pending + 1 }
          spawned := true }) := by
  refine ⟨fun hpend => ?_, fun hpend hfp r hr => ?_, fun hpend hfp => ?_⟩
  · simp [AsyncStatusState.fetch, hpend]
  · simp [AsyncStatusState.fetch, hpend, hfp.symm, hr]
  · simp [AsyncStatusState.fetch, hpend, hfp]

/-- C1 witness: concrete applications of all three cases. -/
theorem asyncstatus_fetch_single_flight_witness :
    ({ AsyncStatusState.new with pending := 1 } : AsyncStatusState).fetch
        (fun _ g => g + 1) { status_type := .WorkingDir, config := none }
      = { result := none
          state := { AsyncStatusState.new with pending := 1 }
          spawned := false }
    ∧ c1_cached_state.fetch (fun _ g => g + 1)
        { status_type := .WorkingDir, config := none }
      = { result := some { items := [dupItem] }
          state := c1_cached_state
          spawned := false }
    ∧ AsyncStatusState.new.fetch (fun _ g => g + 1)
        { status_type := .WorkingDir, config := none }
      = { result := none
          state := { AsyncStatusState.new with
            current := { hash := 1, cached := none }
            pending := 1 }
          spawned := true } :=
  ⟨(asyncstatus_fetch_single_flight (fun _ g => g + 1)
      { AsyncStatusState.new with pending := 1 }
      { status_type := .WorkingDir, config := none }).1 (by decide),
   (asyncstatus_fetch_single_flight (fun _ g => g + 1) c1_cached_state
      { status_type := .WorkingDir, config := none }).2.1 (by decide)
      (by decide) { items := [dupItem] } (by decide),
   (asyncstatus_fetch_single_flight (fun _ g => g + 1) AsyncStatusState.new
      { status_type := .WorkingDir, config := none }).2.2 (by decide)
      (by decide)⟩

/-- C3 counterexample: a hook that exits 0 with non-empty captured
stdout is mapped to the `Ok` variant, which carries neither the exit
code nor the captured streams — not to a code-and-captures variant
as the claim states for every exit code. -/
theorem hook_result_success_discards_captures :
    Hookspath.hook_result_from_output c3_hook c3_output = .Ok c3_hook
    ∧ (Hookspath.hook_result_from_output c3_hook c3_output).stdout_of = none
    ∧ (Hookspath.hook_result_from_output c3_hook c3_output).code_of = none
    ∧ c3_output.code = some 0
    ∧ c3_output.stdout = "captured output" := by
  refine ⟨?_, ?_, ?_, rfl, rfl⟩ <;> rfl

/-- C3 (amended): a script exiting with non-zero code `k` yields
`RunNotSuccessful` with code `Some k` and the full lossy-decoded
captures; a script exiting 0 yields `Ok` carrying only the hook path;
and the library's success predicate holds exactly for exit code 0,
with a missing hook also counting as success. -/
theorem hook_result_mapping (hook : FsPath) (out : Output) :
    (∀ k : Int, out.code = some k → k ≠ 0 →
      Hookspath.hook_result_from_output hook out
        = .RunNotSuccessful (some k) out.stdout out.stderr hook)
    ∧ (out.code = some 0 →
      Hookspath.hook_result_from_output hook out = .Ok hook)
    ∧ (∀ r : HooksLib.HookRunResponse,
      (HooksLib.HookResult.Run r).is_ok = decide (r.code = 0))
    ∧ HooksLib.HookResult.NoHookFound.is_ok = true := by
  refine ⟨fun k hk hk0 => ?_, fun h0 => ?_, fun r => rfl, rfl⟩
  · simp [Hookspath.hook_result_from_output, Output.success, hk, hk0]
  · simp [Hookspath.hook_result_from_output, Output.success, h0]

/-- C3 witness: both exit-code cases at concrete outputs. -/
theorem hook_result_mapping_witness :
    Hookspath.hook_result_from_output c3_hook
        { code := some 1, stdout := "rejected", stderr := "oops" }
      = .RunNotSuccessful (some 1) "rejected" "oops" c3_hook
    ∧ Hookspath.hook_result_from_output c3_hook c3_output = .Ok c3_hook :=
  ⟨(hook_result_mapping c3_hook
      { code := some 1, stdout := "rejected", stderr := "oops" }).1 1
      rfl (by decide),
   (hook_result_mapping c3_hook c3_output).2.1 rfl⟩

/-- C4: with `core.hooksPath` configured, resolution returns the
expanded `base/hookname` against the hook's working directory
(worktree root when one exists, git dir otherwise), is independent
of the existence oracle (no search, no presence check), and a
relative expanded base is resolved against that working directory. -/
theorem hookspath_new_config_path (file_exists : FsPath → Bool)
    (home : Option FsPath) (repo : Repository)
    (other_paths : Option (List FsPath)) (hook : String) (base : FsPath)
    (hcfg : repo.hooks_path_config = some base) :
    HookPaths.new file_exists home repo other_paths hook
      = { git := repo.gitdir
          hook := expand_path home (base.join (relFile hook))
            (repo.workdir.getD repo.gitdir)
          pwd := repo.workdir.getD repo.gitdir }
    ∧ (∀ fe2 : FsPath → Bool,
      HookPaths.new file_exists home repo other_paths hook
        = HookPaths.new fe2 home repo other_paths hook)
    ∧ ((tilde_expand home (base.join (relFile hook))).absolute = false →
      (HookPaths.new file_exists home repo other_paths hook).hook
        = (repo.workdir.getD repo.gitdir).join
            (tilde_expand home (base.join (relFile hook)))) := by
  refine ⟨?_, fun fe2 => ?_, fun hrel => ?_⟩
  · simp [HookPaths.new, hcfg]
  · simp [HookPaths.new, hcfg]
  · simp [HookPaths.new, hcfg, expand_path, hrel]

/-- C4 witness: a concrete repository with a relative configured
hooks dir; the resolved hook lands under the worktree root and never
consults the filesystem oracle. -/
theorem hookspath_new_config_path_witness :
    HookPaths.new (fun _ => false) none c4_repo none "pre-commit"
      = { git := { absolute := true, comps := ["wt", ".git"] }
          hook := { absolute := true, comps := ["wt", "myhooks", "pre-commit"] }
          pwd := { absolute := true, comps := ["wt"] } }
    ∧ ∀ fe2 : FsPath → Bool,
      HookPaths.new (fun _ => false) none c4_repo none "pre-commit"
        = HookPaths.new fe2 none c4_repo none "pre-commit" := by
  have h := hookspath_new_config_path (fun _ => false) none c4_repo none
    "pre-commit" { absolute := false, comps := ["myhooks"] } rfl
  exact ⟨h.1.trans (by decide), h.2.1⟩

/-- C5 (code bug): from the buffer `["ä", "aaaa"]`, the reachable
move sequence Down, End, Up leaves the cursor at column 2 on a line
whose character count is 1 — the vertical moves clamp the column
with the line's UTF-8 byte length instead of its character count, so
the cursor-bounds invariant `col ≤ char_count(lines[row])` fails. -/
theorem textarea_cursor_exceeds_char_count :
    c5_state.cursor = (0, 2)
    ∧ (c5_state.lines.getD 0 []).length = 1
    ∧ ¬ c5_state.cursor.2 ≤ (c5_state.lines.getD 0 []).length := by
  refine ⟨by decide, by decide, by decide⟩

/-- C6: a found pre-push hook receives argv `[remote-name, url]`,
or `[url, url]` when the caller supplies no (or an empty) remote
name, and stdin consisting of one line per update
`local_ref SP local_oid SP remote_ref SP remote_oid LF`, a missing
oid rendering as forty `'0'` characters; no hook, no invocation. -/
theorem hooks_pre_push_protocol (remote : Option String) (url : String)
    (updates : List PrePushRef) :
    (∀ r, remote = some r → r ≠ "" →
      hooks_pre_push true remote url updates
        = some { args := [r, url]
                 stdin_data :=
                   some (String.join (updates.map (fun u => u.to_line ++ "\n"))) })
    ∧ (remote = none ∨ remote = some "" →
      hooks_pre_push true remote url updates
        = some { args := [url, url]
                 stdin_data :=
                   some (String.join (updates.map (fun u => u.to_line ++ "\n"))) })
    ∧ (∀ u : PrePushRef,
      u.to_line = u.local_ref ++ " " ++ format_oid u.local_oid ++ " "
        ++ u.remote_ref ++ " " ++ format_oid u.remote_oid)
    ∧ format_oid none = String.mk (List.replicate 40 '0')
    ∧ (format_oid none).length = 40
    ∧ (∀ c, c ∈ (format_oid none).data → c = '0')
    ∧ hooks_pre_push false remote url updates = none := by
  refine ⟨fun r hr hr0 => ?_, fun hnone => ?_, fun u => rfl, rfl, by decide,
    fun c hc => ?_, rfl⟩
  · subst hr
    simp [hooks_pre_push, run_hook_os_str_with_stdin, hr0]
  · rcases hnone with h | h <;> subst h <;>
      simp [hooks_pre_push, run_hook_os_str_with_stdin]
  · simpa [format_oid] using List.eq_of_mem_replicate hc

/-- C6 witness: both argv cases at a concrete update list. -/
theorem hooks_pre_push_protocol_witness :
    hooks_pre_push true (some "origin") "https://example.com/repo.git"
        [{ local_ref := "refs/heads/master"
           local_oid := some "ab12"
           remote_ref := "refs/heads/master"
           remote_oid := none }]
      = some { args := ["origin", "https://example.com/repo.git"]
               stdin_data := some ("refs/heads/master ab12 refs/heads/master "
                 ++ String.mk (List.replicate 40 '0') ++ "\n") }
    ∧ hooks_pre_push true none "https://example.com/repo.git" []
      = some { args := ["https://example.com/repo.git",
                        "https://example.com/repo.git"]
               stdin_data := some "" } := by
  have h1 := (hooks_pre_push_protocol (some "origin")
    "https://example.com/repo.git"
    [{ local_ref := "refs/heads/master", local_oid := some "ab12"
       remote_ref := "refs/heads/master", remote_oid := none }]).1
    "origin" rfl (by decide)
  have h2 := (hooks_pre_push_protocol none
    "https://example.com/repo.git" []).2.1 (Or.inl rfl)
  refine ⟨h1.trans ?_, h2.trans ?_⟩
  · simp [PrePushRef.to_line, format_oid, String.join]
  · simp [String.join]

/-- Unfolding of the elapsed-time sequence: check `i + 1` happens one
sleep (of the prescribed length) plus one iteration overhead after
check `i`. -/
theorem elapsed_at_succ (ov : Nat → Nat) (T i : Nat) :
    elapsed_at ov T (i + 1)
      = elapsed_at ov T i + sleep_time (i + 1) (T - elapsed_at ov T i)
        + ov (i + 1) := rfl

/-- Characterization of the backoff loop returning `false`, stated
from an arbitrary check index: the loop times out exactly when some
check sees elapsed time beyond the timeout with the child still
incomplete at it and at every earlier check. -/
theorem twqb_false_iff (ic : Nat → Bool) (ov : Nat → Nat) (T : Nat) :
    ∀ fuel i,
      (timeout_with_quadratic_backoff ic ov T fuel (elapsed_at ov T i) (i + 1)
          = some false ↔
        ∃ k, i ≤ k ∧ k < i + fuel ∧ T < elapsed_at ov T k
          ∧ ∀ j, i ≤ j → j ≤ k → ic (elapsed_at ov T j) = false) := by
  intro fuel
  induction fuel with
  | zero =>
    intro i
    constructor
    · intro h
      exact absurd h (by simp [timeout_with_quadratic_backoff])
    · rintro ⟨k, hik, hk, -, -⟩
      omega
  | succ fuel ih =>
    intro i
    cases hci : ic (elapsed_at ov T i) with
    | true =>
      constructor
      · intro h
        simp [timeout_with_quadratic_backoff, hci] at h
      · rintro ⟨k, hik, hk, hT, hall⟩
        exact absurd (hall i le_rfl hik) (by simp [hci])
    | false =>
      by_cases hT : T < elapsed_at ov T i
      · constructor
        · intro _
          refine ⟨i, le_rfl, by omega, hT, fun j hij hji => ?_⟩
          have : j = i := le_antisymm hji hij
          simpa [this] using hci
        · intro _
          simp [timeout_with_quadratic_backoff, hci, hT]
      · have hstep :
            timeout_with_quadratic_backoff ic ov T (fuel + 1)
              (elapsed_at ov T i) (i + 1)
            = timeout_with_quadratic_backoff ic ov T fuel
                (elapsed_at ov T (i + 1)) (i + 1 + 1) := by
          rw [elapsed_at_succ]
          simp [timeout_with_quadratic_backoff, hci, hT]
        rw [hstep, ih (i + 1)]
        constructor
        · rintro ⟨k, hik, hk, hTk, hall⟩
          refine ⟨k, by omega, by omega, hTk, fun j hij hjk => ?_⟩
          rcases Nat.eq_or_lt_of_le hij with h | h
          · simpa [← h] using hci
          · exact hall j h hjk
        · rintro ⟨k, hik, hk, hTk, hall⟩
          have hki : k ≠ i := by
            intro h
            exact hT (h ▸ hTk)
          exact ⟨k, by omega, by omega, hTk,
            fun j hij hjk => hall j (by omega) hjk⟩

/-- C2: with a timeout set, the supervision loop sleeps exactly
`min(attempt² · 1 ms, 50 ms, remaining)` between consecutive
completion checks (the attempt counter starting at 1), and it
reports a timeout exactly when some check observes elapsed time
strictly beyond the timeout with the child not yet complete at that
check or any earlier one. -/
theorem backoff_sleep_and_timeout (ic : Nat → Bool) (ov : Nat → Nat)
    (T : Nat) :
    (∀ fuel elapsed attempt, ic elapsed = false → elapsed ≤ T →
      timeout_with_quadratic_backoff ic ov T (fuel + 1) elapsed attempt
        = timeout_with_quadratic_backoff ic ov T fuel
            (elapsed + min (min (attempt ^ 2 * 1) 50) (T - elapsed)
              + ov attempt)
            (attempt + 1))
    ∧ ∀ fuel,
      (timeout_with_quadratic_backoff ic ov T fuel 0 1 = some false ↔
        ∃ k, k < fuel ∧ T < elapsed_at ov T k
          ∧ ∀ j, j ≤ k → ic (elapsed_at ov T j) = false) := by
  constructor
  · intro fuel elapsed attempt h1 h2
    simp [timeout_with_quadratic_backoff, h1, Nat.not_lt.mpr h2,
      sleep_time, TIMESCALE, MAX_SLEEP, Nat.one_mul, Nat.mul_one]
  · intro fuel
    have h := twqb_false_iff ic ov T fuel 0
    simpa using h

/-- C2 witness: one prescribed-sleep step and one concrete timeout
report. -/
theorem backoff_sleep_and_timeout_witness :
    timeout_with_quadratic_backoff (fun _ => false) (fun _ => 1) 5 1 0 1
      = timeout_with_quadratic_backoff (fun _ => false) (fun _ => 1) 5 0
          (0 + min (min (1 ^ 2 * 1) 50) (5 - 0) + 1) 2
    ∧ timeout_with_quadratic_backoff (fun _ => false) (fun _ => 1) 0 2 0 1
      = some false :=
  ⟨(backoff_sleep_and_timeout (fun _ => false) (fun _ => 1) 5).1 0 0 1
      rfl (by decide),
   ((backoff_sleep_and_timeout (fun _ => false) (fun _ => 1) 0).2 2).mpr
      ⟨1, by decide, by decide, fun j _ => rfl⟩⟩

end Gitui
